import Mathlib

/-!
# ReprobationTool — verification of the data-aggregation and presentation layer

Shallow embedding of the algorithmic core of the ReprobationTool frontend
(`script.js` and the later revision in `src/unnamed/part_002`): score
classification, article deduplication, sentiment-share normalization,
relevance ranking, the bulk summary loader, the popup view-model, the
merged news feed, and the popup session write discipline.

Modelling conventions:
* JS numbers that carry data values are modelled as `ℚ` (scores, counts,
  trend deltas); timestamps in milliseconds are modelled as `ℤ`.
* JS strings are modelled as `String`, or as `List Char` where the code
  manipulates them character by character.
* A JS field that may be `undefined`/`null` is an `Option`.
* `fetch` outcomes are passed in explicitly: a bulk fetch result is a
  function `String → Option CountryData` (`none` = network error, non-OK
  response, or unparsable JSON — all collapsed to `null` by
  `fetchCountryData`).
* The platform primitive `Date.parse` is passed in as an explicit
  parameter `parse : String → Option ℤ` (`none` = `NaN`).
-/

namespace ReprobationTool

/-! ## Score classifier (`SCORE_LEVELS` / `scoreToLevel`) -/

/-- One entry of the `SCORE_LEVELS` table: an inclusive integer range with a
label and a color. -/
structure ScoreLevel where
  min : ℕ
  max : ℕ
  label : String
  color : String
deriving Repr, DecidableEq

/-- The eleven fixed severity bands, exactly as listed in the source. -/
def SCORE_LEVELS : List ScoreLevel := [
  ⟨0,   9,   "Damnation",           "#b71c1c"⟩,
  ⟨10,  18,  "Excommunication",     "#c62828"⟩,
  ⟨19,  27,  "Reprobation",         "#d32f2f"⟩,
  ⟨28,  36,  "Strong Denunciation", "#e53935"⟩,
  ⟨37,  45,  "Denunciation",        "#ef5350"⟩,
  ⟨46,  54,  "Strong Reproach",     "#ffb74d"⟩,
  ⟨55,  63,  "Reproach",            "#ffd54f"⟩,
  ⟨64,  72,  "Extreme Disapproval", "#fff176"⟩,
  ⟨73,  81,  "Strong Disapproval",  "#dce775"⟩,
  ⟨82,  90,  "Disapproval",         "#aed581"⟩,
  ⟨91,  100, "No Commentary",       "#66bb6a"⟩]

/-- The predicate `score >= l.min && score <= l.max` from `scoreToLevel`.
Scores are rationals, since the data files may carry non-integer scores. -/
def levelMatches (score : ℚ) (l : ScoreLevel) : Bool :=
  decide ((l.min : ℚ) ≤ score ∧ score ≤ (l.max : ℚ))

/-- Source `scoreToLevel(score)`: `SCORE_LEVELS.find(l => score >= l.min && score <= l.max)`.
JS `find` returns the first match or `undefined`. -/
def scoreToLevel (score : ℚ) : Option ScoreLevel :=
  SCORE_LEVELS.find? (levelMatches score)

/-! ## Article deduplication (`dedupeArticles`) -/

/-- An article record as consumed by the frontend.  A JS field that is
absent or `undefined` is modelled as the empty string (both are falsy in
the `article.id || article.url || article.title` chain). -/
structure Article where
  id : String
  url : String
  title : String
  summary : String
  publishedAt : String
deriving Repr, DecidableEq

/-- The dedup key `article.id || article.url || article.title`: the first
truthy (non-empty) of the three fields, the empty string if all are empty. -/
def dedupKey (a : Article) : String :=
  if a.id ≠ "" then a.id else if a.url ≠ "" then a.url else a.title

/-- Worker for `dedupeArticles`, generic in the key function: `seen` is the
`Set` of keys already encountered; an element with an empty key or an
already-seen key is skipped, otherwise it is kept and its key recorded. -/
def dedupeByGo (key : α → String) (seen : List String) : List α → List α
  | [] => []
  | a :: rest =>
    if key a = "" ∨ key a ∈ seen then dedupeByGo key seen rest
    else a :: dedupeByGo key (key a :: seen) rest

/-- Generalisation of `dedupeArticles` in the key function (the source applies the same
logic to plain articles and to articles augmented with `publishedAtMs`). -/
def dedupeBy (key : α → String) (l : List α) : List α :=
  dedupeByGo key [] l

/-- Source `dedupeArticles(articles)`: first-seen-wins filtering on
`dedupKey`, dropping articles whose key is empty. -/
def dedupeArticles (articles : List Article) : List Article :=
  dedupeBy dedupKey articles

/-! ## Score classifier: lemmas -/

/-- Variant of `levelMatches` restricted to integer scores, with the comparisons on `ℕ`. -/
def natLevelMatches (n : ℕ) (l : ScoreLevel) : Bool :=
  decide (l.min ≤ n ∧ n ≤ l.max)

lemma levelMatches_natCast (n : ℕ) (l : ScoreLevel) :
    levelMatches (n : ℚ) l = natLevelMatches n l := by
  simp [levelMatches, natLevelMatches, Nat.cast_le]

lemma find?_congr (p q : α → Bool) (h : ∀ a, p a = q a) :
    ∀ l : List α, l.find? p = l.find? q
  | [] => rfl
  | a :: t => by rw [List.find?_cons, List.find?_cons, h a, find?_congr p q h t]

/-- C3 (amended): for every integer score in [0,100], exactly one of the 11
bands satisfies `min ≤ score ≤ max`, and `scoreToLevel` finds it: the band
ranges partition the integers 0–100 with no gap and no overlap.  (On
non-integer scores the bands have gaps; see the counterexample.) -/
theorem scoreToLevel_partitions_integer_scores :
    ∀ n : ℕ, n ≤ 100 →
      SCORE_LEVELS.countP (levelMatches (n : ℚ)) = 1 ∧
      (scoreToLevel (n : ℚ)).isSome = true := by
  have key : ∀ n : ℕ, n ≤ 100 →
      SCORE_LEVELS.countP (natLevelMatches n) = 1 ∧
      (SCORE_LEVELS.find? (natLevelMatches n)).isSome = true := by decide
  intro n hn
  have hcount : SCORE_LEVELS.countP (levelMatches (n : ℚ)) =
      SCORE_LEVELS.countP (natLevelMatches n) :=
    List.countP_congr (fun a _ => by rw [levelMatches_natCast n a])
  have hfind : SCORE_LEVELS.find? (levelMatches (n : ℚ)) =
      SCORE_LEVELS.find? (natLevelMatches n) :=
    find?_congr _ _ (levelMatches_natCast n) _
  rw [scoreToLevel, hcount, hfind]
  exact key n hn

/-- Witness for `scoreToLevel_partitions_integer_scores` at score 50. -/
theorem scoreToLevel_partitions_integer_scores_witness :
    SCORE_LEVELS.countP (levelMatches (50 : ℚ)) = 1 ∧
    (scoreToLevel (50 : ℚ)).isSome = true :=
  scoreToLevel_partitions_integer_scores 50 (by norm_num)

/-- Counterexample to C3 as stated: the score 19/2 = 9.5 lies in [0,100] but
falls in the gap between the band ending at 9 and the band starting at 10 —
no band matches it and `scoreToLevel` returns `undefined`. -/
theorem scoreToLevel_gap_at_half_integer :
    (0 : ℚ) ≤ 19/2 ∧ (19/2 : ℚ) ≤ 100 ∧
    SCORE_LEVELS.countP (levelMatches (19/2 : ℚ)) = 0 ∧
    scoreToLevel (19/2 : ℚ) = none := by
  refine ⟨by norm_num, by norm_num, ?_, ?_⟩
  · simp only [SCORE_LEVELS, levelMatches, List.countP_cons, List.countP_nil,
      decide_eq_true_eq]
    norm_num
  · rw [scoreToLevel, List.find?_eq_none]
    simp only [SCORE_LEVELS, List.mem_cons, List.not_mem_nil, or_false]
    rintro l (rfl|rfl|rfl|rfl|rfl|rfl|rfl|rfl|rfl|rfl|rfl) <;> norm_num [levelMatches]

/-! ## Article deduplication: lemmas -/

lemma dedupeByGo_sublist (key : α → String) :
    ∀ (l : List α) (seen : List String), (dedupeByGo key seen l).Sublist l
  | [], _ => List.Sublist.slnil
  | a :: rest, seen => by
    rw [dedupeByGo]
    split
    · exact (dedupeByGo_sublist key rest seen).cons a
    · exact (dedupeByGo_sublist key rest (key a :: seen)).cons₂ a

lemma dedupeByGo_filter_nil (key : α → String) (k : String) :
    ∀ (l : List α) (seen : List String), k = "" ∨ k ∈ seen →
      (dedupeByGo key seen l).filter (fun a => key a = k) = []
  | [], _, _ => rfl
  | a :: rest, seen, hk => by
    rw [dedupeByGo]
    by_cases hcond : key a = "" ∨ key a ∈ seen
    · rw [if_pos hcond]
      exact dedupeByGo_filter_nil key k rest seen hk
    · rw [if_neg hcond]
      push_neg at hcond
      have hak : ¬ (key a = k) := by
        rcases hk with h | h
        · exact fun e => hcond.1 (e.trans h)
        · exact fun e => hcond.2 (e ▸ h)
      have hrec := dedupeByGo_filter_nil key k rest (key a :: seen)
        (hk.imp id (List.mem_cons_of_mem _))
      simp [List.filter_cons, hak, hrec]

lemma dedupeByGo_filter_take (key : α → String) (k : String) (hk : k ≠ "") :
    ∀ (l : List α) (seen : List String), k ∉ seen →
      (dedupeByGo key seen l).filter (fun a => key a = k) =
        (l.filter (fun a => key a = k)).take 1
  | [], _, _ => rfl
  | a :: rest, seen, hs => by
    rw [dedupeByGo]
    by_cases hcond : key a = "" ∨ key a ∈ seen
    · rw [if_pos hcond]
      have hak : ¬ (key a = k) := by
        rcases hcond with h | h
        · exact fun e => hk (e.symm.trans h)
        · exact fun e => hs (e ▸ h)
      have hrec := dedupeByGo_filter_take key k hk rest seen hs
      simp [List.filter_cons, hak, hrec]
    · rw [if_neg hcond]
      by_cases hak : key a = k
      · subst hak
        have hrec := dedupeByGo_filter_nil key (key a) rest (key a :: seen)
          (Or.inr (List.mem_cons_self (key a) seen))
        simp [List.filter_cons, hrec, List.take]
      · have hrec := dedupeByGo_filter_take key k hk rest (key a :: seen)
          (by simp only [List.mem_cons, not_or]; exact ⟨fun e => hak e.symm, hs⟩)
        simp [List.filter_cons, hak, hrec]

lemma dedupeByGo_mem_key_ne (key : α → String) :
    ∀ (l : List α) (seen : List String) (a : α),
      a ∈ dedupeByGo key seen l → key a ≠ ""
  | [], _, _, h => absurd h (List.not_mem_nil _)
  | b :: rest, seen, a, h => by
    rw [dedupeByGo] at h
    by_cases hcond : key b = "" ∨ key b ∈ seen
    · rw [if_pos hcond] at h
      exact dedupeByGo_mem_key_ne key rest seen a h
    · rw [if_neg hcond] at h
      push_neg at hcond
      rcases List.mem_cons.mp h with rfl | h'
      · exact hcond.1
      · exact dedupeByGo_mem_key_ne key rest (key b :: seen) a h'

/-- C2 (amended): the merge is first-seen-wins on the dedup key: the output
is a stable sublist of the input, and for each non-empty key the output
keeps exactly the first input article bearing that key.  Two articles
sharing the same url collapse to the first-seen one only when the url is
the dedup key of both (their `id`s are empty); two articles with distinct
non-empty `id`s have distinct dedup keys and are both kept even when they
share a url. -/
theorem dedupeArticles_first_seen_wins :
    (∀ l : List Article, (dedupeArticles l).Sublist l) ∧
    (∀ (l : List Article) (k : String), k ≠ "" →
      (dedupeArticles l).filter (fun a => dedupKey a = k) =
        (l.filter (fun a => dedupKey a = k)).take 1) ∧
    (∀ a b : Article, a.id = "" → b.id = "" → a.url ≠ "" → b.url = a.url →
      dedupeArticles [a, b] = [a]) := by
  refine ⟨fun l => dedupeByGo_sublist dedupKey l [], ?_, ?_⟩
  · intro l k hk
    exact dedupeByGo_filter_take dedupKey k hk l [] (List.not_mem_nil k)
  · intro a b ha hb hau hbu
    have hka : dedupKey a = a.url := by simp [dedupKey, ha, hau]
    have hkb : dedupKey b = a.url := by
      rw [dedupKey, if_neg (by simp [hb]), hbu, if_pos hau]
    simp [dedupeArticles, dedupeBy, dedupeByGo, hka, hkb, hau]

/-- Witness for `dedupeArticles_first_seen_wins`: on two articles sharing
url "u" with empty ids, the filter-at-key-"u" clause and the collapse
clause are instantiated concretely. -/
theorem dedupeArticles_first_seen_wins_witness :
    (dedupeArticles [⟨"", "u", "t1", "", ""⟩, ⟨"", "u", "t2", "", ""⟩]).filter
        (fun a => dedupKey a = "u") =
      ([(⟨"", "u", "t1", "", ""⟩ : Article), ⟨"", "u", "t2", "", ""⟩].filter
        (fun a => dedupKey a = "u")).take 1 ∧
    dedupeArticles [⟨"", "u", "t1", "", ""⟩, ⟨"", "u", "t2", "", ""⟩] =
      [⟨"", "u", "t1", "", ""⟩] :=
  ⟨dedupeArticles_first_seen_wins.2.1 _ "u" (by decide),
   dedupeArticles_first_seen_wins.2.2 _ _ rfl rfl (by decide) rfl⟩

/-- Counterexample to C2 as stated: two articles sharing the same url but
with distinct non-empty ids have distinct dedup keys, so both are kept —
they are not collapsed to the first-seen one. -/
theorem dedupeArticles_same_url_distinct_ids_both_kept :
    dedupeArticles [⟨"a", "u", "t1", "", ""⟩, ⟨"b", "u", "t2", "", ""⟩] =
      [⟨"a", "u", "t1", "", ""⟩, ⟨"b", "u", "t2", "", ""⟩] ∧
    (⟨"a", "u", "t1", "", ""⟩ : Article).url = (⟨"b", "u", "t2", "", ""⟩ : Article).url ∧
    (⟨"a", "u", "t1", "", ""⟩ : Article).id ≠ (⟨"b", "u", "t2", "", ""⟩ : Article).id := by
  decide

/-- C10: every article in the merged output has at least one non-empty
identifier among id, url, title — an article with all three empty or absent
is dropped before deduplication. -/
theorem dedupeArticles_drops_identifierless (l : List Article) (a : Article)
    (h : a ∈ dedupeArticles l) : a.id ≠ "" ∨ a.url ≠ "" ∨ a.title ≠ "" := by
  have hkey : dedupKey a ≠ "" := dedupeByGo_mem_key_ne dedupKey l [] a h
  by_cases hid : a.id = ""
  · by_cases hurl : a.url = ""
    · refine Or.inr (Or.inr ?_)
      rw [dedupKey, if_neg (by simp [hid]), if_neg (by simp [hurl])] at hkey
      exact hkey
    · exact Or.inr (Or.inl hurl)
  · exact Or.inl hid

/-- Witness for `dedupeArticles_drops_identifierless` on a concrete
one-article list. -/
theorem dedupeArticles_drops_identifierless_witness :
    (⟨"x", "", "", "", ""⟩ : Article).id ≠ "" ∨
    (⟨"x", "", "", "", ""⟩ : Article).url ≠ "" ∨
    (⟨"x", "", "", "", ""⟩ : Article).title ≠ "" :=
  dedupeArticles_drops_identifierless [⟨"x", "", "", "", ""⟩]
    ⟨"x", "", "", "", ""⟩ (by decide)

/-! ## Sentiment share normalizer (`calculateSentimentShares`) -/

/-- The three display shares returned by `calculateSentimentShares`. -/
structure SentimentShares where
  posShare : ℚ
  neuShare : ℚ
  negShare : ℚ
deriving Repr, DecidableEq

/-- Source expression `[pos, neu, neg].filter(value => value === 0).length`. -/
def zeroCount3 (pos neu neg : ℕ) : ℕ :=
  (([pos, neu, neg]).filter (fun v => v = 0)).length

/-- Source `calculateSentimentShares(pos, neu, neg)`.  Raw counts
are naturals (non-negative integers), shares are exact rationals.  Note the
source's `nonZeroTotal` is literally `pos + neu + neg` (the zero categories
contribute nothing to it). -/
def calculateSentimentShares (pos neu neg : ℕ) : SentimentShares :=
  let total : ℚ := (pos : ℚ) + (neu : ℚ) + (neg : ℚ)
  let emptyShare : ℚ := 100 / 3
  if total = 0 then ⟨emptyShare, emptyShare, emptyShare⟩
  else
    let minShare : ℚ := 5
    let zeroCount : ℕ := zeroCount3 pos neu neg
    if zeroCount = 0 then
      ⟨((pos : ℚ) / total) * 100, ((neu : ℚ) / total) * 100, ((neg : ℚ) / total) * 100⟩
    else
      let reserved : ℚ := minShare * (zeroCount : ℚ)
      let remaining : ℚ := max (100 - reserved) 0
      let nonZeroTotal : ℚ := (pos : ℚ) + (neu : ℚ) + (neg : ℚ)
      ⟨if pos = 0 then minShare else ((pos : ℚ) / nonZeroTotal) * remaining,
       if neu = 0 then minShare else ((neu : ℚ) / nonZeroTotal) * remaining,
       if neg = 0 then minShare else ((neg : ℚ) / nonZeroTotal) * remaining⟩

lemma total_ne_zero {pos neu neg : ℕ} (h : ¬(pos = 0 ∧ neu = 0 ∧ neg = 0)) :
    (pos : ℚ) + (neu : ℚ) + (neg : ℚ) ≠ 0 := by
  have hn : pos + neu + neg ≠ 0 := by omega
  intro h0
  apply hn
  have : ((pos + neu + neg : ℕ) : ℚ) = 0 := by push_cast; linarith
  exact_mod_cast this

lemma zeroCount3_le_two {pos neu neg : ℕ} (h : ¬(pos = 0 ∧ neu = 0 ∧ neg = 0)) :
    zeroCount3 pos neu neg ≤ 2 := by
  by_cases hp : pos = 0 <;> by_cases hn : neu = 0 <;> by_cases hg : neg = 0 <;>
    simp [zeroCount3, hp, hn, hg] at h ⊢

/-- Closed form of `calculateSentimentShares` when not all counts are zero:
a zero category gets the fixed minimum share 5, a non-zero category gets its
proportion of the budget `100 − 5·zeroCount` (so plain proportions of 100
when no category is zero). -/
lemma calculateSentimentShares_eval (pos neu neg : ℕ)
    (h : ¬(pos = 0 ∧ neu = 0 ∧ neg = 0)) :
    calculateSentimentShares pos neu neg =
      ⟨if pos = 0 then 5 else ((pos : ℚ) / ((pos : ℚ) + (neu : ℚ) + (neg : ℚ))) *
          (100 - 5 * (zeroCount3 pos neu neg : ℚ)),
       if neu = 0 then 5 else ((neu : ℚ) / ((pos : ℚ) + (neu : ℚ) + (neg : ℚ))) *
          (100 - 5 * (zeroCount3 pos neu neg : ℚ)),
       if neg = 0 then 5 else ((neg : ℚ) / ((pos : ℚ) + (neu : ℚ) + (neg : ℚ))) *
          (100 - 5 * (zeroCount3 pos neu neg : ℚ))⟩ := by
  have htot := total_ne_zero h
  rw [calculateSentimentShares]
  simp only [if_neg htot]
  by_cases hzc : zeroCount3 pos neu neg = 0
  · have hp : pos ≠ 0 := by intro e; rw [e] at hzc; simp [zeroCount3] at hzc
    have hn : neu ≠ 0 := by intro e; rw [e] at hzc; simp [zeroCount3] at hzc
    have hg : neg ≠ 0 := by intro e; rw [e] at hzc; simp [zeroCount3] at hzc
    simp only [if_pos hzc, hzc, if_neg hp, if_neg hn, if_neg hg, Nat.cast_zero]
    norm_num
  · have hle : (zeroCount3 pos neu neg : ℚ) ≤ 2 := by
      exact_mod_cast zeroCount3_le_two h
    have hrem : max (100 - 5 * (zeroCount3 pos neu neg : ℚ)) 0 =
        100 - 5 * (zeroCount3 pos neu neg : ℚ) :=
      max_eq_left (by linarith)
    simp only [if_neg hzc, hrem]

/-- C7: `normalize(0,0,0)` yields three equal shares 100/3; otherwise each
zero category gets share 5 and each non-zero category gets its raw-count
proportion of the budget `100 − 5·(number of zero categories)`; in every
case all three shares are non-negative and sum to exactly 100. -/
theorem calculateSentimentShares_spec :
    calculateSentimentShares 0 0 0 = ⟨100/3, 100/3, 100/3⟩ ∧
    (∀ pos neu neg : ℕ, ¬(pos = 0 ∧ neu = 0 ∧ neg = 0) →
      (pos = 0 → (calculateSentimentShares pos neu neg).posShare = 5) ∧
      (neu = 0 → (calculateSentimentShares pos neu neg).neuShare = 5) ∧
      (neg = 0 → (calculateSentimentShares pos neu neg).negShare = 5) ∧
      (pos ≠ 0 → (calculateSentimentShares pos neu neg).posShare =
        ((pos : ℚ) / ((pos : ℚ) + (neu : ℚ) + (neg : ℚ))) *
          (100 - 5 * (zeroCount3 pos neu neg : ℚ))) ∧
      (neu ≠ 0 → (calculateSentimentShares pos neu neg).neuShare =
        ((neu : ℚ) / ((pos : ℚ) + (neu : ℚ) + (neg : ℚ))) *
          (100 - 5 * (zeroCount3 pos neu neg : ℚ))) ∧
      (neg ≠ 0 → (calculateSentimentShares pos neu neg).negShare =
        ((neg : ℚ) / ((pos : ℚ) + (neu : ℚ) + (neg : ℚ))) *
          (100 - 5 * (zeroCount3 pos neu neg : ℚ)))) ∧
    (∀ pos neu neg : ℕ,
      0 ≤ (calculateSentimentShares pos neu neg).posShare ∧
      0 ≤ (calculateSentimentShares pos neu neg).neuShare ∧
      0 ≤ (calculateSentimentShares pos neu neg).negShare ∧
      (calculateSentimentShares pos neu neg).posShare +
        (calculateSentimentShares pos neu neg).neuShare +
        (calculateSentimentShares pos neu neg).negShare = 100) := by
  refine ⟨by norm_num [calculateSentimentShares], ?_, ?_⟩
  · intro pos neu neg h
    rw [calculateSentimentShares_eval pos neu neg h]
    refine ⟨?_, ?_, ?_, ?_, ?_, ?_⟩ <;> intro hcond <;> simp [hcond]
  · intro pos neu neg
    by_cases h : pos = 0 ∧ neu = 0 ∧ neg = 0
    · obtain ⟨rfl, rfl, rfl⟩ := h
      norm_num [calculateSentimentShares]
    · rw [calculateSentimentShares_eval pos neu neg h]
      have htot := total_ne_zero h
      have hle : (zeroCount3 pos neu neg : ℚ) ≤ 2 := by
        exact_mod_cast zeroCount3_le_two h
      have hbudget : (0 : ℚ) ≤ 100 - 5 * (zeroCount3 pos neu neg : ℚ) := by linarith
      have hnonneg : ∀ v : ℕ,
          0 ≤ (v : ℚ) / ((pos : ℚ) + (neu : ℚ) + (neg : ℚ)) *
            (100 - 5 * (zeroCount3 pos neu neg : ℚ)) := by
        intro v
        refine mul_nonneg (div_nonneg (Nat.cast_nonneg v) ?_) hbudget
        positivity
      refine ⟨?_, ?_, ?_, ?_⟩
      · by_cases hp : pos = 0 <;> simp [hp, hnonneg]
      · by_cases hn : neu = 0 <;> simp [hn, hnonneg]
      · by_cases hg : neg = 0 <;> simp [hg, hnonneg]
      · by_cases hp : pos = 0 <;> by_cases hn : neu = 0 <;> by_cases hg : neg = 0
        · exact absurd ⟨hp, hn, hg⟩ h
        · obtain rfl := hp; obtain rfl := hn
          simp only [Nat.cast_zero, zero_add] at htot
          simp [zeroCount3, hg]
          norm_num
        · obtain rfl := hp; obtain rfl := hg
          simp only [Nat.cast_zero, zero_add, add_zero] at htot
          simp [zeroCount3, hn]
          norm_num
        · obtain rfl := hp
          simp only [Nat.cast_zero, zero_add] at htot
          simp [zeroCount3, hn, hg]
          field_simp [htot]
          ring
        · obtain rfl := hn; obtain rfl := hg
          simp only [Nat.cast_zero, zero_add, add_zero] at htot
          simp [zeroCount3, hp]
          norm_num
        · obtain rfl := hn
          simp only [Nat.cast_zero, zero_add, add_zero] at htot
          simp [zeroCount3, hp, hg]
          field_simp [htot]
          ring
        · obtain rfl := hg
          simp only [Nat.cast_zero, add_zero] at htot
          simp [zeroCount3, hp, hn]
          field_simp [htot]
          ring
        · simp [zeroCount3, hp, hn, hg]
          field_simp [htot]
          ring

/-- Witness for `calculateSentimentShares_spec` at counts (0, 2, 3): the
zero category is floored to 5 and the shares sum to 100. -/
theorem calculateSentimentShares_spec_witness :
    (calculateSentimentShares 0 2 3).posShare = 5 ∧
    (calculateSentimentShares 0 2 3).posShare +
      (calculateSentimentShares 0 2 3).neuShare +
      (calculateSentimentShares 0 2 3).negShare = 100 :=
  ⟨(calculateSentimentShares_spec.2.1 0 2 3 (by norm_num)).1 rfl,
   (calculateSentimentShares_spec.2.2 0 2 3).2.2.2⟩

/-! ## Relevance ranker (`normalize` / `relevanceScore`)

Strings are handled character by character here, so labels and queries are
modelled as `List Char`.  The JS builtins are modelled as follows:
`String.prototype.toLowerCase` as `Char.toLower` applied pointwise (exact on
the Basic Latin range used by the country labels), `normalize("NFD")` as the
identity on the character sequence (exact whenever the input has no
precomposed characters), and the regex `/[̀-ͯ]/g` replacement as a
filter dropping combining diacritical marks. -/

/-- A combining diacritical mark U+0300–U+036F. -/
def isCombiningMark (c : Char) : Bool :=
  decide (0x300 ≤ c.toNat ∧ c.toNat ≤ 0x36F)

/-- Source `normalize(str)`: lower-case, then strip combining
diacritical marks. -/
def normalize (s : List Char) : List Char :=
  (s.map Char.toLower).filter (fun c => !(isCombiningMark c))

/-- Worker for `n.split(" ")`: split on the single space character
(JS `split(" ")` does not split on other whitespace). -/
def splitOnSpaceGo (cur : List Char) : List Char → List (List Char)
  | [] => [cur.reverse]
  | c :: t =>
    if c = ' ' then cur.reverse :: splitOnSpaceGo [] t
    else splitOnSpaceGo (c :: cur) t

/-- Source expression `n.split(" ")`. -/
def splitOnSpace (l : List Char) : List (List Char) :=
  splitOnSpaceGo [] l

/-- Source expression `n.includes(q)`: `q` occurs as a contiguous substring of `l`. -/
def containsSub (q : List Char) : List Char → Bool
  | [] => List.isPrefixOf q []
  | c :: t => List.isPrefixOf q (c :: t) || containsSub q t

/-- Source `relevanceScore(name, query)`: 1 on the empty query,
otherwise 300 / 200 / 100 / 0 by prefix, word-prefix, substring, no match,
all on the normalized strings. -/
def relevanceScore (name query : List Char) : ℕ :=
  if query = [] then 1
  else
    let n := normalize name
    let q := normalize query
    if List.isPrefixOf q n then 300
    else if (splitOnSpace n).any (fun w => List.isPrefixOf q w) then 200
    else if containsSub q n then 100
    else 0

/-- Follows the spec's words: like `relevanceScore`, but the 200-tier tests
the words of the label delimited by any whitespace character, not only by
the space character. -/
def splitOnWhitespaceGo (cur : List Char) : List Char → List (List Char)
  | [] => [cur.reverse]
  | c :: t =>
    if c.isWhitespace then cur.reverse :: splitOnWhitespaceGo [] t
    else splitOnWhitespaceGo (c :: cur) t

/-- Follows the spec's words: split on any whitespace character. -/
def splitOnWhitespace (l : List Char) : List (List Char) :=
  splitOnWhitespaceGo [] l

/-- Follows the spec's words: the relevance tiers with whitespace-delimited
words in the 200-tier. -/
def specRelevanceScore (name query : List Char) : ℕ :=
  if query = [] then 1
  else
    let n := normalize name
    let q := normalize query
    if List.isPrefixOf q n then 300
    else if (splitOnWhitespace n).any (fun w => List.isPrefixOf q w) then 200
    else if containsSub q n then 100
    else 0

lemma splitOnSpaceGo_eq_whitespaceGo (cur : List Char) :
    ∀ l : List Char, (∀ c ∈ l, c.isWhitespace → c = ' ') →
      splitOnSpaceGo cur l = splitOnWhitespaceGo cur l
  | [], _ => rfl
  | c :: t, h => by
    have hrec0 := splitOnSpaceGo_eq_whitespaceGo [] t
      (fun d hd => h d (List.mem_cons_of_mem _ hd))
    have hrec1 := splitOnSpaceGo_eq_whitespaceGo (c :: cur) t
      (fun d hd => h d (List.mem_cons_of_mem _ hd))
    rw [splitOnSpaceGo, splitOnWhitespaceGo]
    by_cases hc : c = ' '
    · subst hc
      have hsp : (' ' : Char).isWhitespace = true := by decide
      rw [if_pos rfl, if_pos hsp, hrec0]
    · have hw : c.isWhitespace = false := by
        by_contra hwt
        simp only [Bool.not_eq_false] at hwt
        exact hc (h c (List.mem_cons_self c t) hwt)
      rw [if_neg hc, if_neg (by simp [hw]), hrec1]

/-- C8 (amended): the empty query scores 1 on every label; for non-empty
queries the tiers 300 / 200 / 100 / 0 are decided on the normalized strings
by prefix, word-prefix, and substring tests — where the words of the label
are delimited by the space character only.  When every whitespace character
of the normalized label is a plain space this agrees with the spec's
whitespace-delimited reading, and the spec's concrete examples hold. -/
theorem relevanceScore_tiers :
    (∀ name : List Char, relevanceScore name [] = 1) ∧
    (∀ name query : List Char,
      (∀ c ∈ normalize name, c.isWhitespace → c = ' ') →
      relevanceScore name query = specRelevanceScore name query) ∧
    relevanceScore "Bosnia and Herzegovina".data "herz".data = 200 ∧
    relevanceScore "France".data "fr".data = 300 ∧
    relevanceScore "Chad".data "xyz".data = 0 := by
  refine ⟨fun name => rfl, ?_, by decide, by decide, by decide⟩
  intro name query h
  by_cases hq : query = []
  · subst hq; rfl
  · simp only [relevanceScore, specRelevanceScore, if_neg hq]
    rw [splitOnSpace, splitOnWhitespace, splitOnSpaceGo_eq_whitespaceGo [] (normalize name) h]

/-- Witness for `relevanceScore_tiers`: on the label "France" (whose
normalized form has no exotic whitespace) the code's score agrees with the
spec-worded score. -/
theorem relevanceScore_tiers_witness :
    relevanceScore "France".data "fr".data = specRelevanceScore "France".data "fr".data :=
  relevanceScore_tiers.2.1 "France".data "fr".data (by decide)

/-- Counterexample to C8 as stated: the label "a\tb" contains a tab, a
whitespace character that `split(" ")` does not split on.  The query "b"
starts the whitespace-delimited word "b", so the claim's tiers give 200,
but the code finds no space-delimited word starting with "b" and falls
through to the substring tier, returning 100. -/
theorem relevanceScore_tab_word_scores_100 :
    relevanceScore "a\tb".data "b".data = 100 ∧
    specRelevanceScore "a\tb".data "b".data = 200 := by decide

/-! ## Entity data cache (`loadCountryScores` / `fetchCountryData`)

`fetchCountryData` resolves to the parsed JSON on success and to `null` on a
non-OK response or any error, so a bulk fetch outcome is modelled as a
function `String → Option CountryData`. -/

/-- A parsed per-country JSON record.  Numeric fields are rationals when
present; `trend` holds the finite numeric value of `Number(data.trend)`
(`none` when the field is absent or not coercible to a finite number);
the sentiment counts are the values after the `|| 0` coercion. -/
structure CountryData where
  score : Option ℚ
  trend : Option ℚ
  articles : Option ℚ
  sources : Option ℚ
  latest_articles : Option (List Article)
  sentiment_positive : ℕ
  sentiment_neutral : ℕ
  sentiment_negative : ℕ
  last_updated : String
deriving Repr, DecidableEq

/-- Source constant `NEUTRAL_SCORE = 90`. -/
def NEUTRAL_SCORE : ℚ := 90

/-- Source expression `Number(data.sources ?? data.articles ?? data.latest_articles?.length ?? 0) || 0`
as computed by `loadCountryScores` (note: `sources` first). -/
def rawArticleCountScores (d : CountryData) : ℚ :=
  match d.sources with
  | some v => v
  | none =>
    match d.articles with
    | some v => v
    | none =>
      match d.latest_articles with
      | some arts => (arts.length : ℚ)
      | none => 0

/-- The two global maps `countryScores` and `countryArticleCounts`.  A key
that was never written is `none`. -/
structure SummaryState where
  countryScores : String → Option ℚ
  countryArticleCounts : String → Option ℚ

/-- Write `countryScores[code] = v`. -/
def updScore (st : SummaryState) (code : String) (v : ℚ) : SummaryState :=
  { st with countryScores := fun c => if c = code then some v else st.countryScores c }

/-- Write `countryArticleCounts[code] = v`. -/
def updCount (st : SummaryState) (code : String) (v : ℚ) : SummaryState :=
  { st with countryArticleCounts := fun c => if c = code then some v else st.countryArticleCounts c }

/-- The per-country task body of `loadCountryScores`: seed the neutral
score and a zero count, then overwrite from the fetched record when it
exists (the score only when `articleCount > 0` and the score is a number). -/
def loadOneCountry (fetch : String → Option CountryData) (st : SummaryState)
    (code : String) : SummaryState :=
  let st1 := updCount (updScore st code NEUTRAL_SCORE) code 0
  match fetch code with
  | none => st1
  | some d =>
    let ac := rawArticleCountScores d
    let st2 := updCount st1 code ac
    match d.score with
    | some s => if 0 < ac then updScore st2 code s else st2
    | none => st2

/-- Source `loadCountryScores(countries)`: every per-country task writes only its
own key, and each task's writes are a function of its own fetch result
alone, so the concurrent fan-out (`Promise.all`) is equivalent to this
left fold for every completion order. -/
def loadCountryScores (fetch : String → Option CountryData)
    (codes : List String) : SummaryState :=
  codes.foldl (loadOneCountry fetch) ⟨fun _ => none, fun _ => none⟩

/-- The final `countryScores` entry produced for a code whose fetch
resolved to `r`. -/
def summaryScoreOf (r : Option CountryData) : ℚ :=
  match r with
  | none => NEUTRAL_SCORE
  | some d =>
    match d.score with
    | some s => if 0 < rawArticleCountScores d then s else NEUTRAL_SCORE
    | none => NEUTRAL_SCORE

/-- The final `countryArticleCounts` entry produced for a code whose fetch
resolved to `r`. -/
def summaryCountOf (r : Option CountryData) : ℚ :=
  match r with
  | none => 0
  | some d => rawArticleCountScores d

lemma loadOneCountry_lookup (fetch : String → Option CountryData)
    (st : SummaryState) (code c : String) :
    (loadOneCountry fetch st code).countryScores c =
      (if c = code then some (summaryScoreOf (fetch code)) else st.countryScores c) ∧
    (loadOneCountry fetch st code).countryArticleCounts c =
      (if c = code then some (summaryCountOf (fetch code)) else st.countryArticleCounts c) := by
  by_cases he : c = code
  · subst he
    rw [loadOneCountry]
    cases hf : fetch c with
    | none => simp [updScore, updCount, summaryScoreOf, summaryCountOf, hf]
    | some d =>
      cases hs : d.score with
      | none => simp [updScore, updCount, summaryScoreOf, summaryCountOf, hf, hs]
      | some s =>
        by_cases hac : 0 < rawArticleCountScores d <;>
          simp [updScore, updCount, summaryScoreOf, summaryCountOf, hf, hs, hac]
  · rw [loadOneCountry]
    cases hf : fetch code with
    | none => simp [updScore, updCount, he]
    | some d =>
      cases hs : d.score with
      | none => simp [updScore, updCount, he, hs]
      | some s =>
        by_cases hac : 0 < rawArticleCountScores d <;>
          simp [updScore, updCount, he, hs, hac]

lemma loadCountryScores_foldl (fetch : String → Option CountryData) (c : String) :
    ∀ (codes : List String) (st : SummaryState),
      ((codes.foldl (loadOneCountry fetch) st).countryScores c =
        if c ∈ codes then some (summaryScoreOf (fetch c)) else st.countryScores c) ∧
      ((codes.foldl (loadOneCountry fetch) st).countryArticleCounts c =
        if c ∈ codes then some (summaryCountOf (fetch c)) else st.countryArticleCounts c)
  | [], st => by simp
  | code :: rest, st => by
    rw [List.foldl_cons]
    obtain ⟨ih1, ih2⟩ := loadCountryScores_foldl fetch c rest (loadOneCountry fetch st code)
    obtain ⟨h1, h2⟩ := loadOneCountry_lookup fetch st code c
    by_cases hmem : c ∈ rest
    · simp [ih1, ih2, hmem, List.mem_cons]
    · by_cases he : c = code
      · subst he
        simp [ih1, ih2, hmem, h1, h2, List.mem_cons]
      · simp [ih1, ih2, hmem, he, h1, h2, List.mem_cons]

/-- C4 (amended): per-entity degradation during bulk summary load.  Each
loaded id's final summary is a function of its own fetch result alone, so a
failure for one id cannot affect any other id and the bulk load always
completes; a failed or malformed response degrades that id to
`articleCount = 0` with the score entry set to the neutral placeholder
`NEUTRAL_SCORE = 90` — the entry is present, not absent. -/
theorem loadCountryScores_per_entity :
    (∀ (fetch : String → Option CountryData) (codes : List String) (c : String),
      c ∈ codes → fetch c = none →
        (loadCountryScores fetch codes).countryArticleCounts c = some 0 ∧
        (loadCountryScores fetch codes).countryScores c = some NEUTRAL_SCORE) ∧
    (∀ (fetch : String → Option CountryData) (codes : List String) (c : String),
      c ∈ codes →
        (loadCountryScores fetch codes).countryScores c = some (summaryScoreOf (fetch c)) ∧
        (loadCountryScores fetch codes).countryArticleCounts c = some (summaryCountOf (fetch c))) := by
  have base : ∀ (fetch : String → Option CountryData) (codes : List String) (c : String),
      c ∈ codes →
        (loadCountryScores fetch codes).countryScores c = some (summaryScoreOf (fetch c)) ∧
        (loadCountryScores fetch codes).countryArticleCounts c = some (summaryCountOf (fetch c)) := by
    intro fetch codes c hc
    obtain ⟨h1, h2⟩ := loadCountryScores_foldl fetch c codes ⟨fun _ => none, fun _ => none⟩
    rw [loadCountryScores, h1, h2, if_pos hc, if_pos hc]
    exact ⟨rfl, rfl⟩
  refine ⟨?_, base⟩
  intro fetch codes c hc hf
  obtain ⟨h1, h2⟩ := base fetch codes c hc
  rw [h1, h2, hf]
  exact ⟨rfl, rfl⟩

/-- Witness for `loadCountryScores_per_entity`: a two-country bulk load in
which every fetch fails. -/
theorem loadCountryScores_per_entity_witness :
    (loadCountryScores (fun _ => none) ["AA", "BB"]).countryArticleCounts "AA" = some 0 ∧
    (loadCountryScores (fun _ => none) ["AA", "BB"]).countryScores "AA" = some NEUTRAL_SCORE :=
  loadCountryScores_per_entity.1 (fun _ => none) ["AA", "BB"] "AA" (by simp) rfl

/-- Counterexample to C4 as stated: after a failed fetch the score entry is
*present* and holds the neutral placeholder 90 (`countryScores[code] =
NEUTRAL_SCORE` is written before the fetch and never removed); the claim
says the score is absent. -/
theorem loadCountryScores_failed_score_not_absent :
    (loadCountryScores (fun _ => none) ["AA", "BB"]).countryScores "AA" = some NEUTRAL_SCORE ∧
    (loadCountryScores (fun _ => none) ["AA", "BB"]).countryScores "AA" ≠ none ∧
    NEUTRAL_SCORE = 90 := by
  refine ⟨?_, ?_, rfl⟩ <;> simp [loadCountryScores, List.foldl, loadOneCountry,
    updScore, updCount]

/-! ## Merged news feed (`loadLatestNews` and the popup article list) -/

/-- An article augmented with `publishedAtMs`, as built by
`{...article, publishedAtMs: Date.parse(article.published_at) || 0}`. -/
structure TimedArticle where
  art : Article
  publishedAtMs : ℤ
deriving Repr, DecidableEq

/-- Source expression `Date.parse(s) || 0`: an unparsable timestamp (`NaN`) becomes 0, and a
parse result of exactly 0 stays 0. -/
def publishedMs (parse : String → Option ℤ) (s : String) : ℤ :=
  match parse s with
  | none => 0
  | some v => v

/-- Augment one article with its parsed timestamp. -/
def toTimed (parse : String → Option ℤ) (a : Article) : TimedArticle :=
  ⟨a, publishedMs parse a.publishedAt⟩

/-- The comparator `(a, b) => b.publishedAtMs - a.publishedAtMs` as the
boolean relation "a sorts no later than b": newest first.  JS `sort` is
stable, so it is modelled by the stable `List.mergeSort`. -/
def byNewest (a b : TimedArticle) : Bool :=
  decide (b.publishedAtMs ≤ a.publishedAtMs)

/-- Source `loadLatestNews(countries)`, data part: each per-country task yields its
`latest_articles` list, or `[]` when the fetch failed or the field is not an
array (`responses` holds those outcomes); the lists are flattened,
augmented with timestamps, deduplicated, sorted newest-first, and truncated
to 20. -/
def loadLatestNewsFeed (parse : String → Option ℤ)
    (responses : List (Option (List Article))) : List TimedArticle :=
  let results := responses.map (fun r => r.getD [])
  let articles := results.flatten.map (toTimed parse)
  let uniqueArticles := dedupeBy (fun t => dedupKey t.art) articles
  (uniqueArticles.mergeSort byNewest).take 20

/-- The popup's per-country article list from `openPopup`: the entity's
`latest_articles` (or `[]` when absent/not an array) augmented with
timestamps, sorted newest-first — without deduplication — and truncated
to 12. -/
def popupNewsFeed (parse : String → Option ℤ)
    (latest : Option (List Article)) : List TimedArticle :=
  (((latest.getD []).map (toTimed parse)).mergeSort byNewest).take 12

lemma byNewest_trans : ∀ a b c : TimedArticle, byNewest a b → byNewest b c → byNewest a c := by
  intro a b c hab hbc
  simp only [byNewest, decide_eq_true_eq] at *
  omega

lemma byNewest_total : ∀ a b : TimedArticle, byNewest a b || byNewest b a := by
  intro a b
  simp only [byNewest, Bool.or_eq_true, decide_eq_true_eq]
  omega

lemma sortedByNewest_take (l : List TimedArticle) (n : ℕ) :
    ((l.mergeSort byNewest).take n).Pairwise
      (fun a b => b.publishedAtMs ≤ a.publishedAtMs) := by
  have h := List.sorted_mergeSort byNewest_trans byNewest_total l
  exact (h.imp (fun hab => by simpa [byNewest] using hab)).sublist (List.take_sublist n _)

/-- C9 (amended): both merged feeds are sorted by parsed publish timestamp
descending and truncated to their caps (20 global, 12 per-entity); an
article whose timestamp does not parse is assigned timestamp 0 — the Unix
epoch — and therefore sorts as oldest only among articles with
non-negative parsed timestamps (see the counterexample for a pre-1970
timestamp that sorts below an unparsable one). -/
theorem newsFeed_sorted_and_capped :
    (∀ (parse : String → Option ℤ) (responses : List (Option (List Article))),
      (loadLatestNewsFeed parse responses).Pairwise
        (fun a b => b.publishedAtMs ≤ a.publishedAtMs) ∧
      (loadLatestNewsFeed parse responses).length ≤ 20 ∧
      (∀ t ∈ loadLatestNewsFeed parse responses,
        parse t.art.publishedAt = none → t.publishedAtMs = 0)) ∧
    (∀ (parse : String → Option ℤ) (latest : Option (List Article)),
      (popupNewsFeed parse latest).Pairwise
        (fun a b => b.publishedAtMs ≤ a.publishedAtMs) ∧
      (popupNewsFeed parse latest).length ≤ 12) := by
  constructor
  · intro parse responses
    refine ⟨sortedByNewest_take _ 20, List.length_take_le 20 _, ?_⟩
    intro t ht hparse
    have ht1 : t ∈ (dedupeBy (fun u : TimedArticle => dedupKey u.art)
        ((responses.map (fun r => r.getD [])).flatten.map (toTimed parse))).mergeSort byNewest :=
      List.mem_of_mem_take ht
    have ht2 := List.mem_mergeSort.mp ht1
    have ht3 := (dedupeByGo_sublist (fun u : TimedArticle => dedupKey u.art) _ []).subset ht2
    obtain ⟨a, _, rfl⟩ := List.mem_map.mp ht3
    simp only [toTimed] at hparse
    simp [toTimed, publishedMs, hparse]
  · intro parse latest
    exact ⟨sortedByNewest_take _ 12, List.length_take_le 12 _⟩

/-- The value of the platform `Date.parse` at the two timestamp strings
used below, per ECMA-262: `"1960-01-01"` parses to −315619200000 ms (a
pre-1970 instant), `"not a date"` parses to `NaN`. -/
def parse1960 : String → Option ℤ := fun s =>
  if s = "1960-01-01" then some (-315619200000) else none

/-- An article published in 1960 (negative epoch milliseconds). -/
def oldArticle : Article := ⟨"old", "", "Old", "", "1960-01-01"⟩

/-- An article whose `published_at` does not parse. -/
def badArticle : Article := ⟨"bad", "", "Bad", "", "not a date"⟩

unseal List.merge List.mergeSort in
/-- Witness for `newsFeed_sorted_and_capped` on a concrete two-article
input, instantiating the unparsable-timestamp clause at the article whose
timestamp fails to parse. -/
theorem newsFeed_sorted_and_capped_witness :
    List.Pairwise (fun a b => b.publishedAtMs ≤ a.publishedAtMs)
      (loadLatestNewsFeed parse1960 [some [oldArticle, badArticle]]) ∧
    (loadLatestNewsFeed parse1960 [some [oldArticle, badArticle]]).length ≤ 20 ∧
    (⟨badArticle, 0⟩ : TimedArticle).publishedAtMs = 0 := by
  obtain ⟨h1, h2, h3⟩ := newsFeed_sorted_and_capped.1 parse1960 [some [oldArticle, badArticle]]
  refine ⟨h1, h2, h3 ⟨badArticle, 0⟩ ?_ rfl⟩
  have : loadLatestNewsFeed parse1960 [some [oldArticle, badArticle]] =
      [⟨badArticle, 0⟩, ⟨oldArticle, -315619200000⟩] := by decide
  rw [this]
  exact List.mem_cons_self _ _

unseal List.merge List.mergeSort in
/-- Counterexample to C9 as stated: with one article from 1960 (parsed
timestamp −315619200000) and one unparsable article (timestamp 0), the
sorted feed places the unparsable article first, i.e. newest — not oldest
as the claim requires. -/
theorem newsFeed_unparsable_not_oldest :
    loadLatestNewsFeed parse1960 [some [oldArticle, badArticle]] =
      [⟨badArticle, 0⟩, ⟨oldArticle, -315619200000⟩] ∧
    parse1960 badArticle.publishedAt = none ∧
    parse1960 oldArticle.publishedAt = some (-315619200000) := by
  exact ⟨by decide, rfl, rfl⟩

/-! ## Popup view-model (`openPopup`, success and failure paths)

`openPopup`'s try block runs to completion on a well-formed payload and is
aborted by the catch block on a fetch failure, a JSON parse failure, or the
one statement that can throw on a well-formed JSON value: reading
`level.label` when `articleCount !== 0` and `scoreToLevel(data.score)`
returned `undefined`.  The view below collects the popup's DOM fields as
they stand when `openPopup` finishes, starting from the blank state left by
`resetPopupData()` (so a field the failure path does not touch stays `""`).
Element colors and the persistent trend CSS classes are not modelled. -/

/-- Source constant `NO_DATA_SCORE_TEXT`. -/
def NO_DATA_SCORE_TEXT : String := "Not enough data"

/-- Source constant `NO_DATA_ASSESSMENT_TEXT`. -/
def NO_DATA_ASSESSMENT_TEXT : String := "No information available"

/-- The outcome of the popup's detail fetch: `failure` covers a non-OK
response and an unparsable JSON body. -/
inductive FetchResult where
  | failure
  | success (d : CountryData)
deriving DecidableEq

/-- The popup fields the claims speak about, as they stand when `openPopup`
returns. -/
structure PopupView where
  errorVisible : Bool
  sentimentVisible : Bool
  scoreText : String
  assessmentText : String
  trendText : String
  articlesText : String
  popupNews : List TimedArticle
  lastUpdatedText : String
  shares : Option SentimentShares
  loadingVisible : Bool
  dataVisible : Bool
deriving Repr, DecidableEq

/-- Source expression `data.articles ?? data.sources ?? data.latest_articles?.length ?? 0` as
computed by `openPopup` (note: `articles` first, unlike the bulk loader). -/
def popupArticleCount (d : CountryData) : ℚ :=
  match d.articles with
  | some v => v
  | none =>
    match d.sources with
    | some v => v
    | none =>
      match d.latest_articles with
      | some arts => (arts.length : ℚ)
      | none => 0

/-- Source expression `scoreToLevel(data.score)` for a possibly-absent score: comparisons
against `undefined` are false, so no band matches an absent score. -/
def levelOfScore (s : Option ℚ) : Option ScoreLevel :=
  match s with
  | some q => scoreToLevel q
  | none => none

/-- The trend text `openPopup` renders from `Number(data.trend)`: nothing
when the value is not finite, `"= 0"` at zero, arrow plus signed delta
otherwise. -/
def trendTextOf (t : Option ℚ) : String :=
  match t with
  | none => ""
  | some delta =>
    if delta = 0 then "= 0"
    else if 0 < delta then "▲ +" ++ toString delta
    else "▼ " ++ toString delta

/-- Source statement `scoreEl.innerText = data.score`: the numeric score rendered as text
(an absent score would render as `"undefined"`; unreachable on the success
path, which requires a matched band). -/
def numText (q : Option ℚ) : String :=
  match q with
  | some v => toString v
  | none => "undefined"

/-- Source expression `new Date(s).toLocaleString()`, modelled as the identity on the raw
string: no claim constrains the success-path rendering of `lastUpdated`. -/
def localeString (s : String) : String := s

/-- The popup state the catch block leaves behind: error banner shown,
sentiment section hidden, score / article count / last-updated set to "—",
the empty-state article list — and every field the catch block does not
touch (trend, assessment) still blank from `resetPopupData()`. -/
def failurePopupView : PopupView where
  errorVisible := true
  sentimentVisible := false
  scoreText := "—"
  assessmentText := ""
  trendText := ""
  articlesText := "—"
  popupNews := []
  lastUpdatedText := "—"
  shares := none
  loadingVisible := false
  dataVisible := true

/-- The popup view `openPopup` publishes once its fetch settles: the catch
path on failure or on the `level.label` throw (article count non-zero with
no matched band), otherwise the fully rendered view — with the no-data
placeholders forced when the article count is zero. -/
def openPopupView (parse : String → Option ℤ) (r : FetchResult) : PopupView :=
  match r with
  | FetchResult.failure => failurePopupView
  | FetchResult.success d =>
    let articleCount := popupArticleCount d
    let level := levelOfScore d.score
    if articleCount ≠ 0 ∧ level = none then failurePopupView
    else
      { errorVisible := false
        sentimentVisible := true
        scoreText := if articleCount = 0 then NO_DATA_SCORE_TEXT else numText d.score
        assessmentText :=
          if articleCount = 0 then NO_DATA_ASSESSMENT_TEXT
          else (level.map ScoreLevel.label).getD ""
        trendText := if articleCount = 0 then "" else trendTextOf d.trend
        articlesText := toString articleCount
        popupNews := popupNewsFeed parse d.latest_articles
        lastUpdatedText := localeString d.last_updated
        shares := some (calculateSentimentShares d.sentiment_positive
          d.sentiment_neutral d.sentiment_negative)
        loadingVisible := false
        dataVisible := true }

/-- C6: when the entity's article count is zero the popup reaches the
rendered (Ready) state — data shown, no error — with the score field set to
the fixed "not enough data" placeholder, the assessment field set to its
placeholder, and no trend text, regardless of any numeric score in the
payload. -/
theorem openPopup_zero_articles (parse : String → Option ℤ) (d : CountryData)
    (h : popupArticleCount d = 0) :
    (openPopupView parse (FetchResult.success d)).scoreText = NO_DATA_SCORE_TEXT ∧
    (openPopupView parse (FetchResult.success d)).assessmentText = NO_DATA_ASSESSMENT_TEXT ∧
    (openPopupView parse (FetchResult.success d)).trendText = "" ∧
    (openPopupView parse (FetchResult.success d)).errorVisible = false ∧
    (openPopupView parse (FetchResult.success d)).dataVisible = true ∧
    (openPopupView parse (FetchResult.success d)).loadingVisible = false := by
  simp [openPopupView, h]

/-- Witness for `openPopup_zero_articles`: a payload carrying the numeric
score 50 but `articles = 0` still renders the placeholders. -/
theorem openPopup_zero_articles_witness :
    (openPopupView (fun _ => none)
      (FetchResult.success ⟨some 50, some 1, some 0, none, none, 0, 0, 0, "x"⟩)).scoreText =
        NO_DATA_SCORE_TEXT ∧
    (openPopupView (fun _ => none)
      (FetchResult.success ⟨some 50, some 1, some 0, none, none, 0, 0, 0, "x"⟩)).assessmentText =
        NO_DATA_ASSESSMENT_TEXT ∧
    (openPopupView (fun _ => none)
      (FetchResult.success ⟨some 50, some 1, some 0, none, none, 0, 0, 0, "x"⟩)).trendText = "" ∧
    (openPopupView (fun _ => none)
      (FetchResult.success ⟨some 50, some 1, some 0, none, none, 0, 0, 0, "x"⟩)).errorVisible =
        false ∧
    (openPopupView (fun _ => none)
      (FetchResult.success ⟨some 50, some 1, some 0, none, none, 0, 0, 0, "x"⟩)).dataVisible =
        true ∧
    (openPopupView (fun _ => none)
      (FetchResult.success ⟨some 50, some 1, some 0, none, none, 0, 0, 0, "x"⟩)).loadingVisible =
        false :=
  openPopup_zero_articles (fun _ => none) ⟨some 50, some 1, some 0, none, none, 0, 0, 0, "x"⟩ rfl

/-- C5 (amended): on fetch failure, and on a malformed payload (non-zero
article count with no matched score band, where reading `level.label`
throws), the popup lands in the failure state: score, article count and
last-updated are set to the "—" placeholder, the sentiment section is
hidden and the article list is emptied to its empty-state message — but the
trend and assessment fields are left as the empty string from the reset at
open, not set to "—". -/
theorem openPopup_failure_resets_fields :
    (∀ parse : String → Option ℤ,
      openPopupView parse FetchResult.failure = failurePopupView) ∧
    (∀ (parse : String → Option ℤ) (d : CountryData),
      popupArticleCount d ≠ 0 → levelOfScore d.score = none →
      openPopupView parse (FetchResult.success d) = failurePopupView) ∧
    (failurePopupView.scoreText = "—" ∧ failurePopupView.articlesText = "—" ∧
     failurePopupView.lastUpdatedText = "—" ∧ failurePopupView.trendText = "" ∧
     failurePopupView.assessmentText = "" ∧ failurePopupView.sentimentVisible = false ∧
     failurePopupView.errorVisible = true ∧ failurePopupView.popupNews = [] ∧
     failurePopupView.dataVisible = true ∧ failurePopupView.loadingVisible = false) := by
  refine ⟨fun parse => rfl, ?_, ?_⟩
  · intro parse d h1 h2
    simp [openPopupView, h1, h2]
  · exact ⟨rfl, rfl, rfl, rfl, rfl, rfl, rfl, rfl, rfl, rfl⟩

/-- Witness for `openPopup_failure_resets_fields`: a malformed payload with
three articles but no numeric score lands in the failure view. -/
theorem openPopup_failure_resets_fields_witness :
    openPopupView (fun _ => none)
      (FetchResult.success ⟨none, none, some 3, none, none, 0, 0, 0, "x"⟩) =
      failurePopupView :=
  openPopup_failure_resets_fields.2.1 (fun _ => none)
    ⟨none, none, some 3, none, none, 0, 0, 0, "x"⟩ (by norm_num [popupArticleCount]) rfl

/-- Counterexample to C5 as stated: in the failure state the trend and
assessment fields hold the empty string — the reset value — not the "—"
placeholder the claim requires for every numeric/text field. -/
theorem openPopup_failure_trend_not_dash :
    (openPopupView (fun _ => none) FetchResult.failure).trendText = "" ∧
    (openPopupView (fun _ => none) FetchResult.failure).trendText ≠ "—" ∧
    (openPopupView (fun _ => none) FetchResult.failure).assessmentText = "" ∧
    (openPopupView (fun _ => none) FetchResult.failure).assessmentText ≠ "—" := by
  refine ⟨rfl, ?_, rfl, ?_⟩ <;> decide

/-! ## Popup session write discipline (`openPopup` interleavings)

`openPopup` is an async function with no session counter: its synchronous
prefix (set the title, `resetPopupData()`, show the loading state) runs at
the call, and its continuation after `fetch` + `delay` writes the fetched
entity's fields unconditionally.  In the single-threaded event loop a run
of overlapping `openPopup` calls is a sequence of these two kinds of atomic
steps; the model tracks which entity the title and the data fields
currently reflect (`none` = cleared). -/

/-- One atomic step of a popup session: `start id` is the synchronous
prefix of `openPopup(id)`, `resolve id` is its post-fetch continuation. -/
inductive PopupEvent where
  | start (id : String)
  | resolve (id : String)
deriving DecidableEq

/-- Which entity the popup DOM currently shows: the title set at open, and
the owner of the data fields (`none` while cleared/loading). -/
structure PopupDom where
  title : Option String
  dataOf : Option String
deriving Repr, DecidableEq

/-- Step semantics: `start` sets the title and clears the fields (`resetPopupData`);
`resolve` overwrites the data fields with its entity's payload — there is
no counter check, so it applies regardless of later `start`s. -/
def applyPopupEvent (v : PopupDom) : PopupEvent → PopupDom
  | PopupEvent.start i => ⟨some i, none⟩
  | PopupEvent.resolve i => ⟨v.title, some i⟩

/-- Run a schedule of popup events against an initially empty popup. -/
def runPopup (t : List PopupEvent) : PopupDom :=
  t.foldl applyPopupEvent ⟨none, none⟩

/-- C1 (amended): the popup data fields always reflect the session whose
resolution was applied last — not the latest-opened session.  In
particular the claimed behaviour holds exactly in the schedules where the
newer session resolves last: `open(A); open(B)` with A resolving before B
does end with B's data shown. -/
theorem openPopup_last_resolution_wins :
    (∀ (t : List PopupEvent) (i : String),
      (runPopup (t ++ [PopupEvent.resolve i])).dataOf = some i) ∧
    (∀ A B : String,
      runPopup [PopupEvent.start A, PopupEvent.start B,
        PopupEvent.resolve A, PopupEvent.resolve B] = ⟨some B, some B⟩) := by
  constructor
  · intro t i
    rw [runPopup, List.foldl_append]
    rfl
  · intro A B
    rfl

/-- Counterexample to C1 as stated: `open("A")` then `open("B")` before A
resolves, with B's fetch+delay completing before A's — a legal schedule.
A's stale resolution is applied after B's, so once both sessions have
resolved the popup shows B's title over A's data: the view does not
reflect only B, and the superseded session's resolution was not
discarded. -/
theorem openPopup_superseded_resolution_applied :
    runPopup [PopupEvent.start "A", PopupEvent.start "B",
      PopupEvent.resolve "B", PopupEvent.resolve "A"] =
      ⟨some "B", some "A"⟩ ∧
    (some "A" : Option String) ≠ some "B" := by
  exact ⟨rfl, by decide⟩

end ReprobationTool
